import Mathlib

/-
Verification of the callback-object dispatch protocol of
Source/JavaScriptCore/API/JSCallbackObjectFunctions.h (JSCallbackObject).

The embedding models values, class descriptors, the two callback ABI
generations (version 0 and version 1000), the static member tables, and the
property resolution / invocation dispatch routines as executable Lean
functions.  Host callbacks are modelled as pure Lean functions returning the
data the C callbacks communicate through return values and exception
out-parameters.  The descriptor chain (classRef -> parentClass -> ...) is a
Lean list with the most derived descriptor first; the source walks it with
a for-loop, which the list recursion mirrors.
-/

set_option autoImplicit false

namespace JSCWC

/-- Script values, kept opaque except for the cases the core itself
produces: undefined (jsUndefined), plain data, callable objects with an
allocation identity (JSCallbackFunction instances), and reference errors
(createReferenceError). -/
inductive Value where
  | undefined
  | num (n : Nat)
  | str (s : String)
  | callable (objId : Nat)
  | refError (msg : String)
  deriving Repr, DecidableEq

/-- Property attribute flags, the kJSPropertyAttribute bits carried by
static value and static function entries. -/
structure Attrs where
  readOnly : Bool := false
  dontEnum : Bool := false
  dontDelete : Bool := false
  deriving Repr, DecidableEq

/-- Observable callback/fallback invocations, recorded so theorems can state
which callbacks an operation did or did not consult. -/
inductive Event where
  | classSetPropertyCall (clsId : Nat)
  | entrySetPropertyCall (clsId : Nat)
  | classDeletePropertyCall (clsId : Nat)
  | classCallAsFunctionCall (clsId : Nat)
  | genericPutCall
  | genericDeleteCall
  deriving Repr, DecidableEq

/- Callback signatures.  A version-0 callback receives (ctx, object,
arguments...); the version-1000 "Ex" form additionally receives the
originating class, modelled by the class id (first argument).  Each callback
result carries the data returned plus the exception out-parameter. -/

abbrev HasPropertyCb := String → Bool
abbrev HasPropertyCbEx := Nat → String → Bool
abbrev GetPropertyCb := String → Option Value × Option Value
abbrev GetPropertyCbEx := Nat → String → Option Value × Option Value
abbrev SetPropertyCb := String → Value → Bool × Option Value
abbrev SetPropertyCbEx := Nat → String → Value → Bool × Option Value
abbrev DeletePropertyCb := String → Bool × Option Value
abbrev DeletePropertyCbEx := Nat → String → Bool × Option Value
abbrev CallAsFunctionCb := List Value → Option Value × Option Value
abbrev CallAsFunctionCbEx := Nat → List Value → Option Value × Option Value

/-- The version-0 callback record of a class (JSClassRef v0 fields).  The
fields initCb and finalizeCb model the v0 initialize and finalize callback
pointers; as their invocations only act on the host, presence is what the
model records. -/
structure CallbacksV0 where
  initCb : Option Unit := none
  finalizeCb : Option Unit := none
  hasProperty : Option HasPropertyCb := none
  getProperty : Option GetPropertyCb := none
  setProperty : Option SetPropertyCb := none
  deleteProperty : Option DeletePropertyCb := none
  getPropertyNames : Option (List String) := none
  callAsFunction : Option CallAsFunctionCb := none

/-- The version-1000 callback record of a class (JSClassRef v1000 fields).
The fields initExCb and finalizeExCb model initializeEx and finalizeEx. -/
structure CallbacksV1000 where
  initExCb : Option Unit := none
  finalizeExCb : Option Unit := none
  hasPropertyEx : Option HasPropertyCbEx := none
  getPropertyEx : Option GetPropertyCbEx := none
  setPropertyEx : Option SetPropertyCbEx := none
  deletePropertyEx : Option DeletePropertyCbEx := none
  getPropertyNamesEx : Option (List String) := none
  callAsFunctionEx : Option CallAsFunctionCbEx := none

/-- Version-0 accessor pair of a StaticValueEntry. -/
structure StaticValueV0 where
  getProperty : Option GetPropertyCb := none
  setProperty : Option SetPropertyCb := none

/-- Version-1000 accessor pair of a StaticValueEntry. -/
structure StaticValueV1000 where
  getPropertyEx : Option GetPropertyCbEx := none
  setPropertyEx : Option SetPropertyCbEx := none

/-- StaticValueEntry: one row of the lazily built static value table. -/
structure StaticValueEntry where
  version : Nat
  attributes : Attrs := {}
  v0 : StaticValueV0 := {}
  v1000 : StaticValueV1000 := {}

/-- Version-0 callback of a StaticFunctionEntry. -/
structure StaticFunctionV0 where
  callAsFunction : Option CallAsFunctionCb := none

/-- Version-1000 callback of a StaticFunctionEntry. -/
structure StaticFunctionV1000 where
  callAsFunctionEx : Option CallAsFunctionCbEx := none

/-- StaticFunctionEntry: one row of the lazily built static function table. -/
structure StaticFunctionEntry where
  version : Nat
  attributes : Attrs := {}
  v0 : StaticFunctionV0 := {}
  v1000 : StaticFunctionV1000 := {}

/-- A class descriptor (OpaqueJSClass / JSClassRef).  The id gives descriptor
identity (pointer identity in the source).  staticValues and staticFunctions
are the cached tables; none models a null table pointer. -/
structure JSClass where
  id : Nat
  version : Nat
  v0 : CallbacksV0 := {}
  v1000 : CallbacksV1000 := {}
  staticValues : Option (List (String × StaticValueEntry)) := none
  staticFunctions : Option (List (String × StaticFunctionEntry)) := none

/-- The descriptor chain of an instance: classRef first, then the
parentClass links in order.  The source walks it with
for (jsClass = classRef(); jsClass; jsClass = jsClass->parentClass). -/
abbrev Chain := List JSClass

/-- Callback object instance state: the generic (Parent) object property
storage and an allocation counter giving fresh object identities. -/
structure Inst where
  own : List (String × Value × Attrs) := []
  nextId : Nat := 0
  deriving Repr, DecidableEq

/-- Lookup in the generic own-property storage. -/
def ownLookup : List (String × Value × Attrs) → String → Option (Value × Attrs)
  | [], _ => none
  | (n, v, a) :: rest, name => if n = name then some (v, a) else ownLookup rest name

/-- Insert or replace in the generic own-property storage. -/
def ownInsert : List (String × Value × Attrs) → String → Value → Attrs → List (String × Value × Attrs)
  | [], name, v, a => [(name, v, a)]
  | (n, w, b) :: rest, name, v, a =>
    if n = name then (name, v, a) :: rest else (n, w, b) :: ownInsert rest name v a

/-- Remove from the generic own-property storage. -/
def ownRemove : List (String × Value × Attrs) → String → List (String × Value × Attrs)
  | [], _ => []
  | (n, w, b) :: rest, name => if n = name then rest else (n, w, b) :: ownRemove rest name

/-- Model of the external generic object own-slot probe
(Parent::getOwnPropertySlot with InternalMethodType VMInquiry): looks the
name up in the instance storage. -/
def genericGetOwnSlot (inst : Inst) (name : String) : Option Value :=
  (ownLookup inst.own name).map (fun p => p.1)

/-- Model of the external generic object put (the spec treats genericPut as
an external collaborator): replaces or appends the own property, failing on
a read-only existing own property. -/
def genericPut (inst : Inst) (name : String) (value : Value) : Bool × Inst :=
  match ownLookup inst.own name with
  | some (_, a) =>
    if a.readOnly then (false, inst)
    else (true, { inst with own := ownInsert inst.own name value a })
  | none => (true, { inst with own := ownInsert inst.own name value {} })

/-- Model of the external generic object delete (genericDelete): removes the
own property unless it is flagged DontDelete. -/
def genericDelete (inst : Inst) (name : String) : Bool × Inst :=
  match ownLookup inst.own name with
  | some (_, a) =>
    if a.dontDelete then (false, inst)
    else (true, { inst with own := ownRemove inst.own name })
  | none => (true, inst)

/-- JSObject::putDirect: installs an own property with the given attributes,
bypassing the put protocol; returns true in the source. -/
def putDirect (inst : Inst) (name : String) (value : Value) (attrs : Attrs) : Inst :=
  { inst with own := ownInsert inst.own name value attrs }

/-- Table lookup mirroring staticValues->get(name). -/
def staticValueLookup (c : JSClass) (name : String) : Option StaticValueEntry :=
  match c.staticValues with
  | some table => (table.lookup name)
  | none => none

/-- Table lookup mirroring staticFunctions->get(name). -/
def staticFunctionsLookup (c : JSClass) (name : String) : Option StaticFunctionEntry :=
  match c.staticFunctions with
  | some table => (table.lookup name)
  | none => none

/-! ### Per-class callback selection

Each operation selects its callback with the same two lines, e.g.
setProperty = jsClass->version == 0 ? jsClass->v0.setProperty : nullptr and
setPropertyEx = jsClass->version == 1000 ? jsClass->v1000.setPropertyEx :
nullptr, then guards on (setProperty || setPropertyEx) and invokes the one
that is set.  The classXSel definitions model the ternaries and the
classXAnswer definitions model the guarded invocation, returning none when
neither form is selected. -/

/-- Version-selected class-level setProperty (the v0 ternary). -/
def classSetPropertySel (c : JSClass) : Option SetPropertyCb :=
  if c.version = 0 then c.v0.setProperty else none

/-- Version-selected class-level setPropertyEx (the v1000 ternary). -/
def classSetPropertyExSel (c : JSClass) : Option SetPropertyCbEx :=
  if c.version = 1000 then c.v1000.setPropertyEx else none

/-- Guarded invocation of the class-level set callback; some (result,
exception) when one of the two forms is present. -/
def classSetAnswer (c : JSClass) (name : String) (value : Value) : Option (Bool × Option Value) :=
  match classSetPropertySel c, classSetPropertyExSel c with
  | some f, _ => some (f name value)
  | none, some g => some (g c.id name value)
  | none, none => none

/-- Guarded invocation of the class-level hasProperty callback. -/
def classHasAnswer (c : JSClass) (name : String) : Option Bool :=
  match (if c.version = 0 then c.v0.hasProperty else none),
        (if c.version = 1000 then c.v1000.hasPropertyEx else none) with
  | some f, _ => some (f name)
  | none, some g => some (g c.id name)
  | none, none => none

/-- Guarded invocation of the class-level getProperty callback; the result
pairs the produced value (null JSValueRef modelled as none) with the
exception out-parameter. -/
def classGetAnswer (c : JSClass) (name : String) : Option (Option Value × Option Value) :=
  match (if c.version = 0 then c.v0.getProperty else none),
        (if c.version = 1000 then c.v1000.getPropertyEx else none) with
  | some f, _ => some (f name)
  | none, some g => some (g c.id name)
  | none, none => none

/-- Guarded invocation of the class-level deleteProperty callback. -/
def classDeleteAnswer (c : JSClass) (name : String) : Option (Bool × Option Value) :=
  match (if c.version = 0 then c.v0.deleteProperty else none),
        (if c.version = 1000 then c.v1000.deletePropertyEx else none) with
  | some f, _ => some (f name)
  | none, some g => some (g c.id name)
  | none, none => none

/-- Guarded invocation of the class-level callAsFunction callback. -/
def classCallAnswer (c : JSClass) (args : List Value) : Option (Option Value × Option Value) :=
  match (if c.version = 0 then c.v0.callAsFunction else none),
        (if c.version = 1000 then c.v1000.callAsFunctionEx else none) with
  | some f, _ => some (f args)
  | none, some g => some (g c.id args)
  | none, none => none

/-- Version-selected getPropertyNames callback of a class, modelled by the
list of names the host callback appends to the accumulator. -/
def classGetPropertyNamesSel (c : JSClass) : Option (List String) :=
  if c.version = 0 then c.v0.getPropertyNames
  else if c.version = 1000 then c.v1000.getPropertyNamesEx
  else none

/-- Guarded invocation of a static value entry getter (entry->version
dispatch inside getStaticValue). -/
def entryGetAnswer (c : JSClass) (entry : StaticValueEntry) (name : String) :
    Option (Option Value × Option Value) :=
  match (if entry.version = 0 then entry.v0.getProperty else none),
        (if entry.version = 1000 then entry.v1000.getPropertyEx else none) with
  | some f, _ => some (f name)
  | none, some g => some (g c.id name)
  | none, none => none

/-! ### put (JSCallbackObject::put, source lines 282-353) -/

/-- Outcome of processing one chain descriptor inside put: done models the
early returns, next models falling through to the parent class. -/
inductive PutStep where
  | done (result : Bool) (thrown : Option Value) (inst : Inst) (events : List Event)
  | next (events : List Event)

/-- Whether a put step fell through to the next descriptor. -/
def PutStep.isNext : PutStep → Bool
  | .done _ _ _ _ => false
  | .next _ => true

/-- Events recorded by a put step. -/
def PutStep.stepEvents : PutStep → List Event
  | .done _ _ _ evs => evs
  | .next evs => evs

/-- The static function block of put (source lines 339-348): an existing own
property defers to the generic put, a read-only entry fails, otherwise the
value is installed directly as an own data property (default attributes). -/
def putStaticFunctionPart (c : JSClass) (inst : Inst) (name : String) (value : Value)
    (evs : List Event) : PutStep :=
  match staticFunctionsLookup c name with
  | some entry =>
    match genericGetOwnSlot inst name with
    | some _ =>
      let r := genericPut inst name value
      .done r.1 none r.2 (evs ++ [.genericPutCall])
    | none =>
      if entry.attributes.readOnly then .done false none inst evs
      else .done true none (putDirect inst name value {}) evs
  | none => .next evs

/-- The static value block of put (source lines 316-337).  Note the source
guards on the class-level setProperty/setPropertyEx selections and then
invokes entry->v0.setProperty (the inner shadowing binding); the ternary
else-branch calling the class-level setPropertyEx is unreachable because the
shadowed setProperty was just tested non-null. -/
def putStaticValuePart (c : JSClass) (inst : Inst) (name : String) (value : Value)
    (evs : List Event) : PutStep :=
  match staticValueLookup c name with
  | some entry =>
    if entry.attributes.readOnly then .done false none inst evs
    else if (entry.version = 0 ∧ (classSetPropertySel c).isSome)
        ∨ (entry.version = 1000 ∧ (classSetPropertyExSel c).isSome) then
      match entry.v0.setProperty with
      | some f =>
        let r := f name value
        if r.1 || r.2.isSome then .done r.1 r.2 inst (evs ++ [.entrySetPropertyCall c.id])
        else putStaticFunctionPart c inst name value (evs ++ [.entrySetPropertyCall c.id])
      | none => putStaticFunctionPart c inst name value evs
    else putStaticFunctionPart c inst name value evs
  | none => putStaticFunctionPart c inst name value evs

/-- Processing of one descriptor by put: class-level set callback first
(source lines 296-313), then the static value block, then the static
function block. -/
def putStep (c : JSClass) (inst : Inst) (name : String) (value : Value) : PutStep :=
  match classSetAnswer c name value with
  | some r =>
    if r.1 || r.2.isSome then .done r.1 r.2 inst [.classSetPropertyCall c.id]
    else putStaticValuePart c inst name value [.classSetPropertyCall c.id]
  | none => putStaticValuePart c inst name value []

/-- Result of a full put: the returned bool, the value thrown through the
exception machinery (if any), the updated instance and the recorded
events. -/
structure PutResult where
  result : Bool
  thrown : Option Value
  inst : Inst
  events : List Event
  deriving Repr, DecidableEq

/-- JSCallbackObject::put: walk the chain, letting each descriptor answer,
and fall back to the generic object put (source line 352). -/
def put : Chain → Inst → String → Value → PutResult
  | [], inst, name, value =>
    let r := genericPut inst name value
    { result := r.1, thrown := none, inst := r.2, events := [.genericPutCall] }
  | c :: rest, inst, name, value =>
    match putStep c inst name value with
    | .done r exc inst' evs => { result := r, thrown := exc, inst := inst', events := evs }
    | .next evs =>
      let res := put rest inst name value
      { res with events := evs ++ res.events }

/-! ### deleteProperty (JSCallbackObject::deleteProperty, source lines 421-473) -/

/-- Outcome of processing one chain descriptor inside deleteProperty. -/
inductive DeleteStep where
  | done (result : Bool) (thrown : Option Value) (events : List Event)
  | next (events : List Event)

/-- Whether a delete step fell through to the next descriptor. -/
def DeleteStep.isNext : DeleteStep → Bool
  | .done _ _ _ => false
  | .next _ => true

/-- Events recorded by a delete step. -/
def DeleteStep.stepEvents : DeleteStep → List Event
  | .done _ _ evs => evs
  | .next evs => evs

/-- The static table blocks of deleteProperty (source lines 454-468): a
matching static value or static function entry answers with the negation of
its DontDelete flag. -/
def deleteStaticPart (c : JSClass) (name : String) (evs : List Event) : DeleteStep :=
  match staticValueLookup c name with
  | some entry =>
    if entry.attributes.dontDelete then .done false none evs else .done true none evs
  | none =>
    match staticFunctionsLookup c name with
    | some entry =>
      if entry.attributes.dontDelete then .done false none evs else .done true none evs
    | none => .next evs

/-- Processing of one descriptor by deleteProperty: the delete callback
answers true whenever it returns true or signals an exception (source line
449-450), otherwise the static tables are consulted. -/
def deleteStep (c : JSClass) (name : String) : DeleteStep :=
  match classDeleteAnswer c name with
  | some r =>
    if r.1 || r.2.isSome then .done true r.2 [.classDeletePropertyCall c.id]
    else deleteStaticPart c name [.classDeletePropertyCall c.id]
  | none => deleteStaticPart c name []

/-- Result of a full deleteProperty. -/
structure DeleteResult where
  result : Bool
  thrown : Option Value
  inst : Inst
  events : List Event
  deriving Repr, DecidableEq

/-- JSCallbackObject::deleteProperty: walk the chain and fall back to the
generic object delete (source line 472). -/
def deleteProperty : Chain → Inst → String → DeleteResult
  | [], inst, name =>
    let r := genericDelete inst name
    { result := r.1, thrown := none, inst := r.2, events := [.genericDeleteCall] }
  | c :: rest, inst, name =>
    match deleteStep c name with
    | .done r exc evs => { result := r, thrown := exc, inst := inst, events := evs }
    | .next evs =>
      let res := deleteProperty rest inst name
      { res with events := evs ++ res.events }

/-! ### The read path: getOwnPropertySlot, getStaticValue, callbackGetter,
staticFunctionGetter (source lines 168-243 and 685-795) -/

/-- getStaticValue (source lines 685-721): walk the chain looking for a
static value entry with a getter of its generation; an exception makes it
throw and return jsUndefined (a truthy JSValue), a produced value is
returned, anything else continues; the end of the chain yields the empty
JSValue, modelled as none. -/
def getStaticValue : Chain → String → Option Value × Option Value
  | [], _ => (none, none)
  | c :: rest, name =>
    match staticValueLookup c name with
    | some entry =>
      match entryGetAnswer c entry name with
      | some (_, some e) => (some .undefined, some e)
      | some (some v, none) => (some v, none)
      | some (none, none) => getStaticValue rest name
      | none => getStaticValue rest name
    | none => getStaticValue rest name

/-- The kind of property slot installed by getOwnPropertySlot: the custom
slot bound to callbackGetter, a concrete value slot, or the custom slot
bound to staticFunctionGetter. -/
inductive Slot where
  | customCallback
  | valueSlot (v : Value)
  | customStaticFunction
  deriving Repr, DecidableEq

/-- Result of getOwnPropertySlot: the installed slot (none when the function
returns false) and any value thrown during resolution. -/
structure SlotResult where
  slot : Option Slot
  thrown : Option Value
  deriving Repr, DecidableEq

/-- Processing of one descriptor by getOwnPropertySlot (source lines
180-239): hasProperty answers with the lazy custom slot, otherwise an eager
getProperty answers with a value slot (undefined on exception), otherwise a
static value containment check routes through getStaticValue over the whole
chain, otherwise a static function containment check installs the
staticFunctionGetter custom slot; none of those falls through. -/
def getOwnPropertySlotStep (chain : Chain) (c : JSClass) (name : String) : Option SlotResult :=
  let staticPart : Option SlotResult :=
    match staticValueLookup c name with
    | some _ =>
      match getStaticValue chain name with
      | (some v, thr) => some { slot := some (.valueSlot v), thrown := thr }
      | (none, _) =>
        match staticFunctionsLookup c name with
        | some _ => some { slot := some .customStaticFunction, thrown := none }
        | none => none
    | none =>
      match staticFunctionsLookup c name with
      | some _ => some { slot := some .customStaticFunction, thrown := none }
      | none => none
  match classHasAnswer c name with
  | some true => some { slot := some .customCallback, thrown := none }
  | some false => staticPart
  | none =>
    match classGetAnswer c name with
    | some (_, some e) => some { slot := some (.valueSlot .undefined), thrown := some e }
    | some (some v, none) => some { slot := some (.valueSlot v), thrown := none }
    | some (none, none) => staticPart
    | none => staticPart

/-- The chain walk of getOwnPropertySlot; the first parameter keeps the full
chain because getStaticValue restarts from classRef. -/
def getOwnPropertySlotAux (chain : Chain) : Chain → Inst → String → SlotResult
  | [], inst, name =>
    match genericGetOwnSlot inst name with
    | some v => { slot := some (.valueSlot v), thrown := none }
    | none => { slot := none, thrown := none }
  | c :: rest, inst, name =>
    match getOwnPropertySlotStep chain c name with
    | some r => r
    | none => getOwnPropertySlotAux chain rest inst name

/-- JSCallbackObject::getOwnPropertySlot (source lines 168-243), falling
back to the generic own-slot probe at the end of the chain. -/
def getOwnPropertySlotR (chain : Chain) (inst : Inst) (name : String) : SlotResult :=
  getOwnPropertySlotAux chain chain inst name

/-- The ReferenceError message reported when hasProperty claimed a property
that no getProperty produces (source line 794, protocol violation). -/
def hasPropViolationMsg : String :=
  "hasProperty callback returned true for a property that does not exist."

/-- The ReferenceError message reported for a static function entry with no
callback for its generation (source line 755). -/
def staticFnNullMsg : String :=
  "Static function property defined with NULL callAsFunction callback."

/-- Result of evaluating a custom slot: the value the read produces and any
thrown value. -/
structure GetOutcome where
  value : Value
  thrown : Option Value
  deriving Repr, DecidableEq

/-- callbackGetter (source lines 758-795): walk the chain invoking each
descriptor getProperty; an exception throws and yields undefined, a produced
value is returned; reaching the end throws the protocol-violation
ReferenceError (the thrown error is also the returned encoded value). -/
def callbackGetter : Chain → String → GetOutcome
  | [], _ =>
    { value := .refError hasPropViolationMsg, thrown := some (.refError hasPropViolationMsg) }
  | c :: rest, name =>
    match classGetAnswer c name with
    | some (_, some e) => { value := .undefined, thrown := some e }
    | some (some v, none) => { value := v, thrown := none }
    | some (none, none) => callbackGetter rest name
    | none => callbackGetter rest name

/-- The chain walk of staticFunctionGetter (source lines 736-753): the
first static function entry found for the name materializes a fresh callable
bound to its callback and installs it via putDirect with the entry
attributes; an entry with no callback for its generation falls through to
the parent; the end of the chain throws a ReferenceError. -/
def staticFunctionGetterAux : Chain → Inst → String → GetOutcome × Inst
  | [], inst, _ =>
    ({ value := .refError staticFnNullMsg, thrown := some (.refError staticFnNullMsg) }, inst)
  | c :: rest, inst, name =>
    match staticFunctionsLookup c name with
    | some entry =>
      if entry.version = 0 ∧ entry.v0.callAsFunction.isSome then
        let o := Value.callable inst.nextId
        ({ value := o, thrown := none },
          putDirect { inst with nextId := inst.nextId + 1 } name o entry.attributes)
      else if entry.version = 1000 ∧ entry.v1000.callAsFunctionEx.isSome then
        let o := Value.callable inst.nextId
        ({ value := o, thrown := none },
          putDirect { inst with nextId := inst.nextId + 1 } name o entry.attributes)
      else staticFunctionGetterAux rest inst name
    | none => staticFunctionGetterAux rest inst name

/-- staticFunctionGetter (source lines 723-756): an own or override property
answers first (the cached case), otherwise the chain is walked and the
callable is materialized. -/
def staticFunctionGetter (chain : Chain) (inst : Inst) (name : String) : GetOutcome × Inst :=
  match genericGetOwnSlot inst name with
  | some v => ({ value := v, thrown := none }, inst)
  | none => staticFunctionGetterAux chain inst name

/-- Result of a full property read: whether the slot was found, the value
the slot read produced, any thrown value, and the possibly updated
instance (staticFunctionGetter caches). -/
structure ReadResult where
  found : Bool
  value : Option Value
  thrown : Option Value
  inst : Inst
  deriving Repr, DecidableEq

/-- A full own-property read: resolve the slot with getOwnPropertySlot and
then evaluate it, dispatching custom slots to callbackGetter or
staticFunctionGetter exactly as the engine does when the slot value is
requested. -/
def readOwn (chain : Chain) (inst : Inst) (name : String) : ReadResult :=
  let s := getOwnPropertySlotR chain inst name
  match s.slot with
  | some .customCallback =>
    let g := callbackGetter chain name
    { found := true, value := some g.value, thrown := g.thrown, inst := inst }
  | some (.valueSlot v) => { found := true, value := some v, thrown := s.thrown, inst := inst }
  | some .customStaticFunction =>
    let r := staticFunctionGetter chain inst name
    { found := true, value := some r.1.value, thrown := r.1.thrown, inst := r.2 }
  | none => { found := false, value := none, thrown := s.thrown, inst := inst }

/-! ### Call dispatch (getCallData and call, source lines 563-611) -/

/-- The capability condition of getCallData and call: the descriptor defines
a call-as-function callback for its ABI generation. -/
def hasCallCb (c : JSClass) : Bool :=
  (c.version == 0 && c.v0.callAsFunction.isSome)
    || (c.version == 1000 && c.v1000.callAsFunctionEx.isSome)

/-- JSCallbackObject::getCallData (source lines 563-574): true models
CallType Host, false models CallType None; no callback is invoked, only
presence is inspected. -/
def getCallData : Chain → Bool
  | [] => false
  | c :: rest => if hasCallCb c then true else getCallData rest

/-- Outcome of JSCallbackObject::call: the first capable descriptor answers
with its callback result and exception out-parameter; reaching the end of
the chain is the RELEASE_ASSERT_NOT_REACHED branch, modelled as fatal. -/
inductive CallOutcome where
  | returned (value : Option Value) (thrown : Option Value) (events : List Event)
  | fatal
  deriving Repr, DecidableEq

/-- JSCallbackObject::call (source lines 576-611). -/
def call : Chain → List Value → CallOutcome
  | [], _ => .fatal
  | c :: rest, args =>
    match classCallAnswer c args with
    | some r => .returned r.1 r.2 [.classCallAsFunctionCall c.id]
    | none => call rest args

/-! ### Enumeration (getOwnNonIndexPropertyNames, source lines 613-661) -/

/-- PropertyNameArray.add: appends a name unless it is already present. -/
def addName (acc : List String) (n : String) : List String :=
  if n ∈ acc then acc else acc ++ [n]

/-- Processing of one descriptor by getOwnNonIndexPropertyNames: the
getPropertyNames callback appends its names, then static value names with a
getter for their generation and passing the DontEnum filter, then static
function names passing the DontEnum filter. -/
def enumClassStep (includeDontEnum : Bool) (acc : List String) (c : JSClass) : List String :=
  let acc1 :=
    match classGetPropertyNamesSel c with
    | some ns => ns.foldl addName acc
    | none => acc
  let acc2 :=
    match c.staticValues with
    | some table =>
      table.foldl (fun a p =>
        if ((p.2.version = 0 ∧ p.2.v0.getProperty.isSome)
              ∨ (p.2.version = 1000 ∧ p.2.v1000.getPropertyEx.isSome))
            ∧ (p.2.attributes.dontEnum = false ∨ includeDontEnum = true) then
          addName a p.1
        else a) acc1
    | none => acc1
  match c.staticFunctions with
  | some table =>
    table.foldl (fun a p =>
      if p.2.attributes.dontEnum = false ∨ includeDontEnum = true then addName a p.1 else a) acc2
  | none => acc2

/-- Model of the generic object own enumeration appended at the end (source
line 660): the own property names passing the DontEnum filter. -/
def genericOwnNames (inst : Inst) (includeDontEnum : Bool) : List String :=
  (inst.own.filter (fun p => p.2.2.dontEnum = false || includeDontEnum)).map (fun p => p.1)

/-- JSCallbackObject::getOwnNonIndexPropertyNames: accumulate over the chain
in order, then append the generic object enumeration into the same
deduplicating name array. -/
def getOwnNonIndexPropertyNames (chain : Chain) (inst : Inst) (includeDontEnum : Bool) :
    List String :=
  (genericOwnNames inst includeDontEnum).foldl addName
    (chain.foldl (enumClassStep includeDontEnum) [])

/-! ### Lifecycle ordering (init, source lines 121-146, and the destructor,
source lines 82-100) -/

/-- Whether a class fires its v0 initialize or v1000 initializeEx callback
(the two guarded branches of the init loop body). -/
def hasInitCb (c : JSClass) : Bool :=
  (c.version == 0 && c.v0.initCb.isSome) || (c.version == 1000 && c.v1000.initExCb.isSome)

/-- Whether a class fires its v0 finalize or v1000 finalizeEx callback (the
two guarded branches of the destructor loop body). -/
def hasFinalizeCb (c : JSClass) : Bool :=
  (c.version == 0 && c.v0.finalizeCb.isSome) || (c.version == 1000 && c.v1000.finalizeExCb.isSome)

/-- The order in which init fires initialize callbacks: the chain is
flattened into initRoutines (classRef outward to the root) and the for-loop
then runs the indices from size - 1 down to 0, firing the guarded callback
of each class; the list collects the class ids fired, in order. -/
def initOrder (chain : Chain) : List Nat :=
  let initRoutines := chain
  (List.range initRoutines.length).reverse.filterMap (fun i =>
    match initRoutines[i]? with
    | some clazz => if hasInitCb clazz then some clazz.id else none
    | none => none)

/-- The order in which the destructor fires finalize callbacks: the chain is
walked in its natural order from classRef through the parent links. -/
def finalizeOrder : Chain → List Nat
  | [] => []
  | c :: rest =>
    if c.version == 0 && c.v0.finalizeCb.isSome then c.id :: finalizeOrder rest
    else if c.version == 1000 && c.v1000.finalizeExCb.isSome then c.id :: finalizeOrder rest
    else finalizeOrder rest

/-! ### Spec-side description of enumeration (for the refinement theorem) -/

/-- Following the spec wording, amended: the static value names of one
descriptor whose entry defines a getter for its declared generation and
passes the DontEnum filter. -/
def specStaticValueNames (mode : Bool) (c : JSClass) : List String :=
  match c.staticValues with
  | some table =>
    table.filterMap (fun p =>
      if ((p.2.version = 0 ∧ p.2.v0.getProperty.isSome)
            ∨ (p.2.version = 1000 ∧ p.2.v1000.getPropertyEx.isSome))
          ∧ (p.2.attributes.dontEnum = false ∨ mode = true) then some p.1 else none)
  | none => []

/-- Following the spec wording: the static function names of one descriptor
passing the DontEnum filter. -/
def specStaticFunctionNames (mode : Bool) (c : JSClass) : List String :=
  match c.staticFunctions with
  | some table =>
    table.filterMap (fun p =>
      if p.2.attributes.dontEnum = false ∨ mode = true then some p.1 else none)
  | none => []

/-- Following the spec wording: all names one descriptor contributes, in
order: callback-provided names, then static value names, then static
function names. -/
def specClassEnumNames (mode : Bool) (c : JSClass) : List String :=
  (match classGetPropertyNamesSel c with | some ns => ns | none => [])
    ++ specStaticValueNames mode c ++ specStaticFunctionNames mode c

/-! ### Fallthrough bookkeeping for chain-walk theorems -/

/-- The events recorded by a prefix of descriptors all of which fall through
during put. -/
def putFallthroughEvents (pre : Chain) (inst : Inst) (name : String) (value : Value) :
    List Event :=
  (pre.map (fun c => (putStep c inst name value).stepEvents)).flatten

/-- The events recorded by a prefix of descriptors all of which fall through
during deleteProperty. -/
def deleteFallthroughEvents (pre : Chain) (name : String) : List Event :=
  (pre.map (fun c => (deleteStep c name).stepEvents)).flatten

/-- The attributes the deleteProperty static blocks consult for a name: the
static value entry first, then the static function entry. -/
def deleteStaticAttrs (c : JSClass) (name : String) : Option Attrs :=
  match staticValueLookup c name with
  | some entry => some entry.attributes
  | none => (staticFunctionsLookup c name).map (fun e => e.attributes)

/-! ### Concrete inputs used by witnesses and counterexamples -/

/-- C1 input: a setter that would report success if it were ever invoked. -/
def c1Setter : SetPropertyCb := fun _ _ => (true, none)

/-- C1 input: a writable static value entry with a defined v0 setter. -/
def c1Entry : StaticValueEntry := { version := 0, v0 := { setProperty := some c1Setter } }

/-- C1 input: a class with no class-level set callback whose static value
table carries c1Entry under the name y. -/
def c1Class : JSClass := { id := 1, version := 0, staticValues := some [("y", c1Entry)] }

/-- C2 counterexample input: a class whose setProperty callback returns
false without an exception. -/
def c2Class : JSClass :=
  { id := 2, version := 0, v0 := { setProperty := some (fun _ _ => (false, none)) } }

/-- C2 witness input: a class whose setProperty callback returns true. -/
def c2wClass : JSClass :=
  { id := 21, version := 0, v0 := { setProperty := some (fun _ _ => (true, none)) } }

/-- C2 witness input: a deeper descriptor that would also answer, used to
show it is never consulted. -/
def c2wPost : JSClass :=
  { id := 22, version := 0, v0 := { setProperty := some (fun _ _ => (true, none)) } }

/-- C3 witness input: a class whose hasProperty callback answers true while
no getProperty callback exists anywhere. -/
def c3Class : JSClass :=
  { id := 3, version := 0, v0 := { hasProperty := some (fun _ => true) } }

/-- C3 witness input: a class defining both hasProperty and a getProperty
producing a value. -/
def c3BothClass : JSClass :=
  { id := 31, version := 0,
    v0 := { hasProperty := some (fun _ => true),
            getProperty := some (fun _ => (some (.num 42), none)) } }

/-- C4 counterexample input: a static value entry with no getter and not
flagged DontEnum. -/
def c4Entry : StaticValueEntry := { version := 0 }

/-- C4 counterexample input: a class carrying c4Entry under the name a. -/
def c4Class : JSClass := { id := 4, version := 0, staticValues := some [("a", c4Entry)] }

/-- C5 witness input: an extended-generation class with a call callback. -/
def c5Class : JSClass :=
  { id := 5, version := 1000,
    v1000 := { callAsFunctionEx := some (fun _ _ => (some (.num 7), none)) } }

/-- C6 and C7 input: a static function entry with a v0 callback. -/
def c6Entry : StaticFunctionEntry :=
  { version := 0, v0 := { callAsFunction := some (fun _ => (none, none)) } }

/-- C6 and C7 input: a class carrying c6Entry under the name m. -/
def c6Class : JSClass := { id := 6, version := 0, staticFunctions := some [("m", c6Entry)] }

/-- C8 witness input: a static value entry flagged DontDelete. -/
def c8Entry : StaticValueEntry := { version := 0, attributes := { dontDelete := true } }

/-- C8 witness input: a class carrying c8Entry under the name d, with a
deeper descriptor whose delete callback would answer true. -/
def c8Class : JSClass := { id := 8, version := 0, staticValues := some [("d", c8Entry)] }

/-- C8 witness input: the deeper descriptor whose delete callback must never
be consulted. -/
def c8Post : JSClass :=
  { id := 81, version := 0, v0 := { deleteProperty := some (fun _ => (true, none)) } }

/-- C10 witness input: a class whose delete callback returns false but
signals an exception. -/
def c10Class : JSClass :=
  { id := 10, version := 0,
    v0 := { deleteProperty := some (fun _ => (false, some (.str "boom"))) } }

/-! ### Helper lemmas -/

theorem ownLookup_ownInsert_self (l : List (String × Value × Attrs)) (name : String)
    (v : Value) (a : Attrs) : ownLookup (ownInsert l name v a) name = some (v, a) := by
  induction l with
  | nil => simp [ownInsert, ownLookup]
  | cons p rest ih =>
    obtain ⟨n, w, b⟩ := p
    by_cases h : n = name
    · simp [ownInsert, h, ownLookup]
    · simp [ownInsert, h, ownLookup, ih]

theorem genericGetOwnSlot_putDirect_self (inst : Inst) (name : String) (v : Value) (a : Attrs) :
    genericGetOwnSlot (putDirect inst name v a) name = some v := by
  simp [genericGetOwnSlot, putDirect, ownLookup_ownInsert_self]

theorem staticFunctionGetter_of_own (chain : Chain) (inst : Inst) (name : String) (v : Value)
    (h : genericGetOwnSlot inst name = some v) :
    staticFunctionGetter chain inst name = ({ value := v, thrown := none }, inst) := by
  simp [staticFunctionGetter, h]

theorem put_cons_done (c : JSClass) (rest : Chain) (inst : Inst) (name : String) (value : Value)
    (r : Bool) (exc : Option Value) (inst' : Inst) (evs : List Event)
    (h : putStep c inst name value = .done r exc inst' evs) :
    put (c :: rest) inst name value =
      { result := r, thrown := exc, inst := inst', events := evs } := by
  simp [put, h]

theorem put_append_of_fallthrough (pre rest : Chain) (inst : Inst) (name : String) (value : Value)
    (hpre : ∀ c ∈ pre, (putStep c inst name value).isNext = true) :
    put (pre ++ rest) inst name value =
      { put rest inst name value with
        events := putFallthroughEvents pre inst name value ++ (put rest inst name value).events } := by
  induction pre with
  | nil => simp [putFallthroughEvents]
  | cons c pre ih =>
    have hc := hpre c (List.mem_cons_self c pre)
    have hrest := fun c' h => hpre c' (List.mem_cons_of_mem _ h)
    cases hstep : putStep c inst name value with
    | done r exc i evs => rw [hstep] at hc; simp [PutStep.isNext] at hc
    | next evs =>
      simp only [List.cons_append, put, hstep, List.append_eq]
      rw [ih hrest]
      simp [putFallthroughEvents, PutStep.stepEvents, hstep, List.append_assoc]

theorem delete_cons_done (c : JSClass) (rest : Chain) (inst : Inst) (name : String)
    (r : Bool) (exc : Option Value) (evs : List Event)
    (h : deleteStep c name = .done r exc evs) :
    deleteProperty (c :: rest) inst name =
      { result := r, thrown := exc, inst := inst, events := evs } := by
  simp [deleteProperty, h]

theorem delete_append_of_fallthrough (pre rest : Chain) (inst : Inst) (name : String)
    (hpre : ∀ c ∈ pre, (deleteStep c name).isNext = true) :
    deleteProperty (pre ++ rest) inst name =
      { deleteProperty rest inst name with
        events := deleteFallthroughEvents pre name ++ (deleteProperty rest inst name).events } := by
  induction pre with
  | nil => simp [deleteFallthroughEvents]
  | cons c pre ih =>
    have hc := hpre c (List.mem_cons_self c pre)
    have hrest := fun c' h => hpre c' (List.mem_cons_of_mem _ h)
    cases hstep : deleteStep c name with
    | done r exc evs => rw [hstep] at hc; simp [DeleteStep.isNext] at hc
    | next evs =>
      simp only [List.cons_append, deleteProperty, hstep, List.append_eq]
      rw [ih hrest]
      simp [deleteFallthroughEvents, DeleteStep.stepEvents, hstep, List.append_assoc]

theorem putStep_of_answer (c : JSClass) (inst : Inst) (name : String) (value : Value)
    (r : Bool) (exc : Option Value)
    (hcb : classSetAnswer c name value = some (r, exc))
    (hans : r = true ∨ exc.isSome = true) :
    putStep c inst name value = .done r exc inst [.classSetPropertyCall c.id] := by
  unfold putStep
  rw [hcb]
  rcases hans with h | h <;> simp [h]

theorem deleteStep_of_exception (c : JSClass) (name : String) (b : Bool) (e : Value)
    (hcb : classDeleteAnswer c name = some (b, some e)) :
    deleteStep c name = .done true (some e) [.classDeletePropertyCall c.id] := by
  unfold deleteStep
  rw [hcb]
  simp

theorem deleteStep_of_static (c : JSClass) (name : String) (attrs : Attrs)
    (hcb : classDeleteAnswer c name = none ∨ classDeleteAnswer c name = some (false, none))
    (hattrs : deleteStaticAttrs c name = some attrs) :
    ∃ evs, deleteStep c name = .done (!attrs.dontDelete) none evs := by
  have hstatic : ∀ evs, deleteStaticPart c name evs = .done (!attrs.dontDelete) none evs := by
    intro evs
    unfold deleteStaticPart
    unfold deleteStaticAttrs at hattrs
    cases hsv : staticValueLookup c name with
    | some entry =>
      rw [hsv] at hattrs
      cases hattrs
      cases hd : entry.attributes.dontDelete <;> simp [hd]
    | none =>
      rw [hsv] at hattrs
      cases hsf : staticFunctionsLookup c name with
      | some entry =>
        rw [hsf] at hattrs
        cases hattrs
        cases hd : entry.attributes.dontDelete <;> simp [hd]
      | none => rw [hsf] at hattrs; cases hattrs
  rcases hcb with h | h
  · exact ⟨[], by unfold deleteStep; rw [h]; exact hstatic []⟩
  · refine ⟨[.classDeletePropertyCall c.id], ?_⟩
    unfold deleteStep
    rw [h]
    simpa using hstatic [.classDeletePropertyCall c.id]

theorem classCallAnswer_isSome_eq (c : JSClass) (args : List Value) :
    (classCallAnswer c args).isSome = hasCallCb c := by
  unfold classCallAnswer hasCallCb
  by_cases h0 : c.version = 0
  · simp only [h0, if_pos rfl]
    cases c.v0.callAsFunction <;> simp
  · by_cases h1 : c.version = 1000
    · simp only [h1, if_neg h0, if_pos rfl]
      have : (c.version == 0) = false := by simp [h1]
      cases c.v1000.callAsFunctionEx <;> simp [h1, h0]
    · simp [h0, h1]

theorem classCallAnswer_eq_none_of_noCall (c : JSClass) (args : List Value)
    (h : hasCallCb c = false) : classCallAnswer c args = none := by
  have := classCallAnswer_isSome_eq c args
  rw [h] at this
  exact Option.not_isSome_iff_eq_none.mp (by simp [this])

theorem getCallData_iff_exists (chain : Chain) :
    getCallData chain = true ↔ ∃ c ∈ chain, hasCallCb c = true := by
  induction chain with
  | nil => simp [getCallData]
  | cons c rest ih =>
    unfold getCallData
    by_cases h : hasCallCb c = true
    · simp [h]
    · simp only [Bool.not_eq_true] at h
      simp [h, ih]

theorem call_append_of_noCall (pre rest : Chain) (args : List Value)
    (hpre : ∀ c ∈ pre, hasCallCb c = false) :
    call (pre ++ rest) args = call rest args := by
  induction pre with
  | nil => rfl
  | cons c pre ih =>
    have hc := classCallAnswer_eq_none_of_noCall c args (hpre c (List.mem_cons_self c pre))
    simp only [List.cons_append, call, hc]
    exact ih (fun c' h => hpre c' (List.mem_cons_of_mem _ h))

theorem call_ne_fatal_of_capable (chain : Chain) (args : List Value)
    (h : getCallData chain = true) : call chain args ≠ CallOutcome.fatal := by
  induction chain with
  | nil => simp [getCallData] at h
  | cons c rest ih =>
    unfold call
    cases hans : classCallAnswer c args with
    | some r => simp
    | none =>
      have hcb : hasCallCb c = false := by
        have := classCallAnswer_isSome_eq c args
        rw [hans] at this
        simpa using this.symm
      unfold getCallData at h
      rw [hcb] at h
      simp only [Bool.false_eq_true, if_false] at h
      exact ih h

theorem callbackGetter_append_of_silent (pre rest : Chain) (name : String)
    (h : ∀ c ∈ pre, classGetAnswer c name = none ∨ classGetAnswer c name = some (none, none)) :
    callbackGetter (pre ++ rest) name = callbackGetter rest name := by
  induction pre with
  | nil => rfl
  | cons c pre ih =>
    have hc := h c (List.mem_cons_self c pre)
    have hrest := fun c' hm => h c' (List.mem_cons_of_mem _ hm)
    rcases hc with hc | hc <;> simp only [List.cons_append, callbackGetter, hc] <;> exact ih hrest

theorem callbackGetter_of_all_silent (l : Chain) (name : String)
    (h : ∀ c ∈ l, classGetAnswer c name = none ∨ classGetAnswer c name = some (none, none)) :
    callbackGetter l name =
      { value := .refError hasPropViolationMsg, thrown := some (.refError hasPropViolationMsg) } := by
  have := callbackGetter_append_of_silent l [] name h
  rw [List.append_nil] at this
  rw [this]
  rfl

theorem slotStep_none_of_skip (chain : Chain) (c : JSClass) (name : String)
    (hhas : classHasAnswer c name = none) (hget : classGetAnswer c name = none)
    (hsv : staticValueLookup c name = none) (hsf : staticFunctionsLookup c name = none) :
    getOwnPropertySlotStep chain c name = none := by
  unfold getOwnPropertySlotStep
  rw [hhas, hget, hsv, hsf]

theorem slotStep_staticFn (chain : Chain) (c : JSClass) (name : String)
    (entry : StaticFunctionEntry)
    (hhas : classHasAnswer c name = none) (hget : classGetAnswer c name = none)
    (hsv : staticValueLookup c name = none) (hsf : staticFunctionsLookup c name = some entry) :
    getOwnPropertySlotStep chain c name = some { slot := some .customStaticFunction, thrown := none } := by
  unfold getOwnPropertySlotStep
  rw [hhas, hget, hsv, hsf]

theorem slotAux_append_of_skip (chain : Chain) (pre rest : Chain) (inst : Inst) (name : String)
    (h : ∀ c ∈ pre, getOwnPropertySlotStep chain c name = none) :
    getOwnPropertySlotAux chain (pre ++ rest) inst name =
      getOwnPropertySlotAux chain rest inst name := by
  induction pre with
  | nil => rfl
  | cons c pre ih =>
    have hc := h c (List.mem_cons_self c pre)
    simp only [List.cons_append, getOwnPropertySlotAux, hc]
    exact ih (fun c' hm => h c' (List.mem_cons_of_mem _ hm))

theorem sfgAux_append_of_absent (pre rest : Chain) (inst : Inst) (name : String)
    (h : ∀ c ∈ pre, staticFunctionsLookup c name = none) :
    staticFunctionGetterAux (pre ++ rest) inst name = staticFunctionGetterAux rest inst name := by
  induction pre with
  | nil => rfl
  | cons c pre ih =>
    have hc := h c (List.mem_cons_self c pre)
    simp only [List.cons_append, staticFunctionGetterAux, hc]
    exact ih (fun c' hm => h c' (List.mem_cons_of_mem _ hm))

theorem sfgAux_cons_of_entry (c : JSClass) (rest : Chain) (inst : Inst) (name : String)
    (entry : StaticFunctionEntry)
    (hsf : staticFunctionsLookup c name = some entry)
    (hcb : (entry.version = 0 ∧ entry.v0.callAsFunction.isSome = true)
      ∨ (entry.version = 1000 ∧ entry.v1000.callAsFunctionEx.isSome = true)) :
    staticFunctionGetterAux (c :: rest) inst name =
      ({ value := .callable inst.nextId, thrown := none },
        putDirect { inst with nextId := inst.nextId + 1 } name (.callable inst.nextId)
          entry.attributes) := by
  unfold staticFunctionGetterAux
  rw [hsf]
  rcases hcb with ⟨h1, h2⟩ | ⟨h1, h2⟩
  · simp [h1, h2]
  · have h0 : ¬ (entry.version = 0 ∧ entry.v0.callAsFunction.isSome = true) := by
      intro hcontra
      rw [h1] at hcontra
      exact absurd hcontra.1 (by decide)
    simp [h0, h1, h2]

theorem foldl_if_addName {α : Type} (q : α → Prop) [DecidablePred q] (f : α → String)
    (l : List α) (acc : List String) :
    l.foldl (fun a x => if q x then addName a (f x) else a) acc
      = (l.filterMap (fun x => if q x then some (f x) else none)).foldl addName acc := by
  induction l generalizing acc with
  | nil => rfl
  | cons x t ih => by_cases h : q x <;> simp [h, ih]

theorem enumClassStep_eq_spec (mode : Bool) (acc : List String) (c : JSClass) :
    enumClassStep mode acc c = (specClassEnumNames mode c).foldl addName acc := by
  unfold enumClassStep specClassEnumNames specStaticValueNames specStaticFunctionNames
  rw [List.foldl_append, List.foldl_append]
  cases hn : classGetPropertyNamesSel c <;>
    cases hv : c.staticValues <;>
      cases hf : c.staticFunctions <;>
        simp only [foldl_if_addName, List.foldl_nil]

theorem chain_foldl_enum_eq (mode : Bool) (chain : Chain) (acc : List String) :
    chain.foldl (enumClassStep mode) acc
      = ((chain.map (specClassEnumNames mode)).flatten).foldl addName acc := by
  induction chain generalizing acc with
  | nil => rfl
  | cons c t ih =>
    simp only [List.foldl_cons, List.map_cons, List.flatten_cons, List.foldl_append]
    rw [enumClassStep_eq_spec, ih]

theorem range_reverse_filterMap_getElem (g : JSClass → Option Nat) (l : Chain) :
    (List.range l.length).reverse.filterMap (fun i =>
        match l[i]? with
        | some c => g c
        | none => none)
      = l.reverse.filterMap g := by
  induction l using List.reverseRecOn with
  | nil => rfl
  | append_singleton l a ih =>
    rw [List.length_append, List.length_singleton, List.range_succ, List.reverse_append,
      List.reverse_singleton, List.singleton_append, List.filterMap_cons, List.reverse_append,
      List.reverse_singleton, List.singleton_append, List.filterMap_cons]
    have hlast : (l ++ [a])[l.length]? = some a := by
      rw [List.getElem?_append_right (Nat.le_refl l.length)]
      simp
    rw [hlast]
    have htail : (List.range l.length).reverse.filterMap (fun i =>
        match (l ++ [a])[i]? with | some c => g c | none => none)
        = (List.range l.length).reverse.filterMap (fun i =>
        match l[i]? with | some c => g c | none => none) := by
      apply List.filterMap_congr
      intro i hi
      have hilt : i < l.length := by
        rw [List.mem_reverse, List.mem_range] at hi
        exact hi
      rw [List.getElem?_append_left hilt]
    rw [htail, ih]

theorem filterMap_if_id (p : JSClass → Bool) (l : Chain) :
    l.filterMap (fun c => if p c then some c.id else none) = (l.filter p).map JSClass.id := by
  induction l with
  | nil => rfl
  | cons c t ih => by_cases h : p c <;> simp [h, ih]

/-! ### Claim theorems -/

/-- C9: across a descriptor chain, init fires the initialize callbacks in
base-to-derived order (the reverse of the chain walk: the chain is flattened
from the immediate descriptor to the root and invoked in reverse), while the
destructor fires the finalize callbacks in derived-to-base order (the
natural most-derived-first chain walk). -/
theorem lifecycle_callback_order (chain : Chain) :
    initOrder chain = ((chain.filter hasInitCb).map JSClass.id).reverse ∧
    finalizeOrder chain = (chain.filter hasFinalizeCb).map JSClass.id := by
  constructor
  · unfold initOrder
    rw [range_reverse_filterMap_getElem (fun c => if hasInitCb c then some c.id else none) chain,
      filterMap_if_id, List.filter_reverse, List.map_reverse]
  · induction chain with
    | nil => rfl
    | cons c t ih =>
      by_cases hA : (c.version == 0 && c.v0.finalizeCb.isSome) = true
      · have hcb : hasFinalizeCb c = true := by unfold hasFinalizeCb; rw [hA]; rfl
        simp [finalizeOrder, hA, List.filter_cons, hcb, ih]
      · by_cases hB : (c.version == 1000 && c.v1000.finalizeExCb.isSome) = true
        · have hcb : hasFinalizeCb c = true := by unfold hasFinalizeCb; rw [hB]; simp
          simp [finalizeOrder, hA, hB, List.filter_cons, hcb, ih]
        · have hcb : hasFinalizeCb c = false := by
            unfold hasFinalizeCb
            simp only [Bool.not_eq_true] at hA hB
            rw [hA, hB]
            rfl
          simp [finalizeOrder, hA, hB, List.filter_cons, hcb, ih]

/-- C4 amended: enumeration accumulates, walking the chain in order, the
names appended by each descriptor getPropertyNames callback, then the
static value names whose entry defines a getter for its declared generation
and is not flagged DontEnum (all such names when non-enumerable names are
requested), then the static function names under the same DontEnum filter,
deduplicated keeping first occurrences, followed by the generic object own
enumeration. -/
theorem enum_accumulates_in_chain_order (chain : Chain) (inst : Inst) (mode : Bool) :
    getOwnNonIndexPropertyNames chain inst mode =
      ((chain.map (specClassEnumNames mode)).flatten ++ genericOwnNames inst mode).foldl
        addName [] := by
  unfold getOwnNonIndexPropertyNames
  rw [List.foldl_append, chain_foldl_enum_eq]

/-- C4 counterexample: a static value entry with no getter and not flagged
DontEnum is still skipped by enumeration, in both enumeration modes,
contradicting the claim that every static value name not flagged DontEnum is
accumulated. -/
theorem enum_staticValue_without_getter_not_enumerated :
    staticValueLookup c4Class "a" = some c4Entry ∧
    c4Entry.attributes.dontEnum = false ∧
    getOwnNonIndexPropertyNames [c4Class] {} false = [] ∧
    getOwnNonIndexPropertyNames [c4Class] {} true = [] :=
  ⟨rfl, rfl, rfl, rfl⟩

/-- C1: evaluation at the failing input.  The class has no class-level set
callback; its static value table holds a writable entry for y with a
defined v0 setter.  put nevertheless never invokes the entry setter (no
entrySetPropertyCall event) and falls through to the generic put, because
the static value block additionally requires a class-level setProperty
callback of the entry generation. -/
theorem put_staticValue_setter_gated_by_class_callback :
    classSetAnswer c1Class "y" (.num 5) = none ∧
    staticValueLookup c1Class "y" = some c1Entry ∧
    c1Entry.v0.setProperty.isSome = true ∧
    c1Entry.attributes.readOnly = false ∧
    put [c1Class] {} "y" (.num 5)
      = { result := true, thrown := none,
          inst := { own := [("y", .num 5, {})], nextId := 0 },
          events := [.genericPutCall] } :=
  ⟨rfl, rfl, rfl, rfl, rfl⟩

/-- C2 counterexample: a chain whose descriptor defines a setProperty
callback that returns false without an exception; the set nevertheless
succeeds through the generic put, so the callback boolean did not decide the
success of the set. -/
theorem put_setProperty_false_falls_through :
    classSetAnswer c2Class "p" (.num 1) = some (false, none) ∧
    (put [c2Class] {} "p" (.num 1)).result = true :=
  ⟨rfl, rfl⟩

/-- C2 amended: when the first answering descriptor setProperty callback
returns true or signals an exception, put returns that callback boolean
result immediately, with the exception propagated, the instance untouched,
and nothing further consulted (the deeper chain, static tables and generic
put are all skipped: the outcome equals the outcome on the chain truncated
right after that descriptor).  A false return without an exception instead
falls through to the rest of the resolution. -/
theorem put_setProperty_authoritative_on_success (pre : Chain) (c : JSClass) (post : Chain)
    (inst : Inst) (name : String) (value : Value) (r : Bool) (exc : Option Value)
    (hpre : ∀ c' ∈ pre, (putStep c' inst name value).isNext = true)
    (hcb : classSetAnswer c name value = some (r, exc))
    (hans : r = true ∨ exc.isSome = true) :
    put (pre ++ c :: post) inst name value =
      { result := r, thrown := exc, inst := inst,
        events := putFallthroughEvents pre inst name value ++ [.classSetPropertyCall c.id] } ∧
    put (pre ++ c :: post) inst name value = put (pre ++ [c]) inst name value := by
  have hstep := putStep_of_answer c inst name value r exc hcb hans
  have hdone := put_cons_done c post inst name value r exc inst _ hstep
  have hdone1 := put_cons_done c [] inst name value r exc inst _ hstep
  have h1 := put_append_of_fallthrough pre (c :: post) inst name value hpre
  have h2 := put_append_of_fallthrough pre [c] inst name value hpre
  rw [hdone] at h1
  rw [hdone1] at h2
  exact ⟨h1, by rw [h1, h2]⟩

/-- C2 witness: a concrete two-descriptor chain whose first setProperty
callback answers true; the set returns true after that single callback and
equals the outcome on the truncated chain. -/
theorem put_setProperty_authoritative_on_success_witness :
    put [c2wClass, c2wPost] {} "p" (.num 3) =
      { result := true, thrown := none, inst := {},
        events := [.classSetPropertyCall 21] } ∧
    put [c2wClass, c2wPost] {} "p" (.num 3) = put [c2wClass] {} "p" (.num 3) := by
  have h := put_setProperty_authoritative_on_success [] c2wClass [c2wPost] {} "p" (.num 3)
    true none (by intro c' hc'; cases hc') rfl (Or.inl rfl)
  simpa [putFallthroughEvents] using h

/-- C5: the call capability probe reports callable exactly when some chain
descriptor defines a call-as-function callback for its ABI generation (the
probe is a pure presence inspection and invokes nothing); whenever the probe
reports callable the fatal end-of-chain branch of the call dispatcher is
unreachable; and the call dispatches to the first capable descriptor found
in chain order. -/
theorem getCallData_call_coherent (chain : Chain) (args : List Value) :
    (getCallData chain = true ↔ ∃ c ∈ chain, hasCallCb c = true) ∧
    (getCallData chain = true → call chain args ≠ CallOutcome.fatal) ∧
    (∀ pre c post, chain = pre ++ c :: post →
      (∀ c' ∈ pre, hasCallCb c' = false) → hasCallCb c = true →
      ∀ r, classCallAnswer c args = some r →
        call chain args = .returned r.1 r.2 [.classCallAsFunctionCall c.id]) := by
  refine ⟨getCallData_iff_exists chain, call_ne_fatal_of_capable chain args, ?_⟩
  intro pre c post hchain hpre hc r hr
  subst hchain
  rw [call_append_of_noCall pre (c :: post) args hpre]
  simp [call, hr]

/-- C5 witness: a one-descriptor extended-generation chain whose probe
answers callable, whose call is not fatal and dispatches to that
descriptor callback. -/
theorem getCallData_call_coherent_witness :
    getCallData [c5Class] = true ∧
    call [c5Class] [] ≠ CallOutcome.fatal ∧
    call [c5Class] [] = .returned (some (.num 7)) none [.classCallAsFunctionCall 5] := by
  have h := getCallData_call_coherent [c5Class] []
  refine ⟨rfl, h.2.1 rfl, ?_⟩
  exact h.2.2 [] c5Class [] rfl (by intro c' hc'; cases hc') rfl (some (.num 7), none) rfl

/-- C6: setting a name matching a static function entry (not handled earlier
by a set callback or a static value entry): with an existing own property
the set defers entirely to the generic put; otherwise a read-only entry
fails with the instance untouched; otherwise the value is installed directly
as an own data property, which then shadows the method: the own slot holds
the value and staticFunctionGetter returns it instead of materializing. -/
theorem put_staticFunction_set_behavior (pre : Chain) (c : JSClass) (post : Chain)
    (inst : Inst) (name : String) (value : Value) (entry : StaticFunctionEntry)
    (hpre : ∀ c' ∈ pre, (putStep c' inst name value).isNext = true)
    (hset : classSetAnswer c name value = none ∨ classSetAnswer c name value = some (false, none))
    (hsv : staticValueLookup c name = none)
    (hsf : staticFunctionsLookup c name = some entry) :
    (∀ w, genericGetOwnSlot inst name = some w →
      (put (pre ++ c :: post) inst name value).result = (genericPut inst name value).1 ∧
      (put (pre ++ c :: post) inst name value).inst = (genericPut inst name value).2) ∧
    (genericGetOwnSlot inst name = none → entry.attributes.readOnly = true →
      (put (pre ++ c :: post) inst name value).result = false ∧
      (put (pre ++ c :: post) inst name value).inst = inst) ∧
    (genericGetOwnSlot inst name = none → entry.attributes.readOnly = false →
      (put (pre ++ c :: post) inst name value).result = true ∧
      (put (pre ++ c :: post) inst name value).inst = putDirect inst name value {} ∧
      genericGetOwnSlot (putDirect inst name value {}) name = some value ∧
      (staticFunctionGetter (pre ++ c :: post) (putDirect inst name value {}) name).1.value
        = value) := by
  have hstep : ∃ evs, putStep c inst name value = putStaticFunctionPart c inst name value evs := by
    rcases hset with h | h
    · refine ⟨[], ?_⟩
      unfold putStep
      rw [h]
      unfold putStaticValuePart
      rw [hsv]
    · refine ⟨[.classSetPropertyCall c.id], ?_⟩
      unfold putStep
      rw [h]
      simp only [Option.isSome_none, Bool.or_false, Bool.false_eq_true, if_false]
      unfold putStaticValuePart
      rw [hsv]
  obtain ⟨evs, hstep⟩ := hstep
  have hT := put_append_of_fallthrough pre (c :: post) inst name value hpre
  refine ⟨?_, ?_, ?_⟩
  · intro w hw
    have hpart : putStaticFunctionPart c inst name value evs
        = .done (genericPut inst name value).1 none (genericPut inst name value).2
            (evs ++ [.genericPutCall]) := by
      unfold putStaticFunctionPart
      rw [hsf, hw]
    have hdone := put_cons_done c post inst name value _ _ _ _ (hstep.trans hpart)
    rw [hdone] at hT
    rw [hT]
    exact ⟨rfl, rfl⟩
  · intro hw hro
    have hpart : putStaticFunctionPart c inst name value evs = .done false none inst evs := by
      unfold putStaticFunctionPart
      rw [hsf, hw]
      simp [hro]
    have hdone := put_cons_done c post inst name value _ _ _ _ (hstep.trans hpart)
    rw [hdone] at hT
    rw [hT]
    exact ⟨rfl, rfl⟩
  · intro hw hro
    have hpart : putStaticFunctionPart c inst name value evs
        = .done true none (putDirect inst name value {}) evs := by
      unfold putStaticFunctionPart
      rw [hsf, hw]
      simp [hro]
    have hdone := put_cons_done c post inst name value _ _ _ _ (hstep.trans hpart)
    rw [hdone] at hT
    rw [hT]
    refine ⟨rfl, rfl, genericGetOwnSlot_putDirect_self inst name value {}, ?_⟩
    rw [staticFunctionGetter_of_own (pre ++ c :: post) (putDirect inst name value {}) name value
      (genericGetOwnSlot_putDirect_self inst name value {})]

/-- C6 witness: a one-descriptor chain with a writable static function
entry for m and no prior own property: the set installs the value as an own
data property and the own slot then shadows the method. -/
theorem put_staticFunction_set_behavior_witness :
    (put [c6Class] {} "m" (.num 9)).result = true ∧
    (put [c6Class] {} "m" (.num 9)).inst = putDirect {} "m" (.num 9) {} ∧
    genericGetOwnSlot (putDirect {} "m" (.num 9) {}) "m" = some (.num 9) ∧
    (staticFunctionGetter [c6Class] (putDirect {} "m" (.num 9) {}) "m").1.value = .num 9 := by
  have h := put_staticFunction_set_behavior [] c6Class [] {} "m" (.num 9) c6Entry
    (by intro c' hc'; cases hc') (Or.inl rfl) rfl rfl
  exact h.2.2 rfl rfl

/-- C8: when no deleteProperty callback answers first (every earlier
descriptor falls through and the matching descriptor own delete callback is
absent or returns false without an exception) and the matching descriptor
carries a static value or static function entry for the name, delete
returns the negation of the entry DontDelete flag, throws nothing, leaves
the instance untouched, and consults nothing deeper: the outcome equals the
outcome on the chain truncated right after that descriptor. -/
theorem delete_static_entry_behavior (pre : Chain) (c : JSClass) (post : Chain) (inst : Inst)
    (name : String) (attrs : Attrs)
    (hpre : ∀ c' ∈ pre, (deleteStep c' name).isNext = true)
    (hcb : classDeleteAnswer c name = none ∨ classDeleteAnswer c name = some (false, none))
    (hattrs : deleteStaticAttrs c name = some attrs) :
    (deleteProperty (pre ++ c :: post) inst name).result = !attrs.dontDelete ∧
    (deleteProperty (pre ++ c :: post) inst name).thrown = none ∧
    (deleteProperty (pre ++ c :: post) inst name).inst = inst ∧
    deleteProperty (pre ++ c :: post) inst name = deleteProperty (pre ++ [c]) inst name := by
  obtain ⟨evs, hstep⟩ := deleteStep_of_static c name attrs hcb hattrs
  have hdone := delete_cons_done c post inst name _ _ _ hstep
  have hdone1 := delete_cons_done c [] inst name _ _ _ hstep
  have h1 := delete_append_of_fallthrough pre (c :: post) inst name hpre
  have h2 := delete_append_of_fallthrough pre [c] inst name hpre
  rw [hdone] at h1
  rw [hdone1] at h2
  exact ⟨by rw [h1], by rw [h1], by rw [h1], by rw [h1, h2]⟩

/-- C8 witness: a DontDelete static value entry for d answers false while a
deeper descriptor with a delete callback that would answer true is never
consulted. -/
theorem delete_static_entry_behavior_witness :
    (deleteProperty [c8Class, c8Post] {} "d").result = false ∧
    (deleteProperty [c8Class, c8Post] {} "d").thrown = none ∧
    deleteProperty [c8Class, c8Post] {} "d" = deleteProperty [c8Class] {} "d" := by
  have h := delete_static_entry_behavior [] c8Class [c8Post] {} "d" { dontDelete := true }
    (by intro c' hc'; cases hc') (Or.inl rfl) rfl
  exact ⟨by simpa using h.1, h.2.1, h.2.2.2⟩

/-- C10: when a descriptor deleteProperty callback signals an exception, the
delete reports success (returns true) regardless of the callback boolean
result, propagates the exception, and consults nothing further. -/
theorem delete_callback_exception_reports_true (pre : Chain) (c : JSClass) (post : Chain)
    (inst : Inst) (name : String) (b : Bool) (e : Value)
    (hpre : ∀ c' ∈ pre, (deleteStep c' name).isNext = true)
    (hcb : classDeleteAnswer c name = some (b, some e)) :
    (deleteProperty (pre ++ c :: post) inst name).result = true ∧
    (deleteProperty (pre ++ c :: post) inst name).thrown = some e ∧
    deleteProperty (pre ++ c :: post) inst name = deleteProperty (pre ++ [c]) inst name := by
  have hstep := deleteStep_of_exception c name b e hcb
  have hdone := delete_cons_done c post inst name _ _ _ hstep
  have hdone1 := delete_cons_done c [] inst name _ _ _ hstep
  have h1 := delete_append_of_fallthrough pre (c :: post) inst name hpre
  have h2 := delete_append_of_fallthrough pre [c] inst name hpre
  rw [hdone] at h1
  rw [hdone1] at h2
  exact ⟨by rw [h1], by rw [h1], by rw [h1, h2]⟩

/-- C10 witness: a delete callback returning false with an exception makes
the delete report true and propagate the exception. -/
theorem delete_callback_exception_reports_true_witness :
    (deleteProperty [c10Class] {} "q").result = true ∧
    (deleteProperty [c10Class] {} "q").thrown = some (.str "boom") := by
  have h := delete_callback_exception_reports_true [] c10Class [] {} "q" false (.str "boom")
    (by intro c' hc'; cases hc') rfl
  exact ⟨h.1, h.2.1⟩

/-- C3: when resolution installed the lazy callbackGetter slot (some
hasProperty callback answered true): if no getProperty callback anywhere in
the chain produces a value or an exception, the read throws the
protocol-violation ReferenceError; and if every descriptor before some
descriptor is silent while that descriptor getProperty produces a value,
the read returns that value with nothing thrown. -/
theorem hasProperty_read_semantics (chain : Chain) (inst : Inst) (name : String)
    (hslot : (getOwnPropertySlotR chain inst name).slot = some Slot.customCallback) :
    ((∀ c ∈ chain, classGetAnswer c name = none ∨ classGetAnswer c name = some (none, none)) →
      (readOwn chain inst name).thrown = some (.refError hasPropViolationMsg)) ∧
    (∀ pre c post v, chain = pre ++ c :: post →
      (∀ c' ∈ pre, classGetAnswer c' name = none ∨ classGetAnswer c' name = some (none, none)) →
      classGetAnswer c name = some (some v, none) →
      (readOwn chain inst name).value = some v ∧ (readOwn chain inst name).thrown = none) := by
  have hread : readOwn chain inst name =
      { found := true, value := some (callbackGetter chain name).value,
        thrown := (callbackGetter chain name).thrown, inst := inst } := by
    unfold readOwn
    simp only [hslot]
  constructor
  · intro hsilent
    rw [hread, callbackGetter_of_all_silent chain name hsilent]
  · intro pre c post v hchain hpre hc
    rw [hread]
    subst hchain
    rw [callbackGetter_append_of_silent pre (c :: post) name hpre]
    simp [callbackGetter, hc]

/-- C3 witness: with hasProperty answering true and no getProperty, the read
throws the ReferenceError; with hasProperty and a getProperty producing 42,
the read returns 42. -/
theorem hasProperty_read_semantics_witness :
    (readOwn [c3Class] {} "x").thrown = some (.refError hasPropViolationMsg) ∧
    (readOwn [c3BothClass] {} "x").value = some (.num 42) ∧
    (readOwn [c3BothClass] {} "x").thrown = none := by
  have h1 := hasProperty_read_semantics [c3Class] {} "x" rfl
  have h2 := hasProperty_read_semantics [c3BothClass] {} "x" rfl
  refine ⟨h1.1 ?_, ?_, ?_⟩
  · intro c hc
    rw [List.mem_singleton] at hc
    subst hc
    exact Or.inl rfl
  · exact (h2.2 [] c3BothClass [] (.num 42) rfl (by intro c' hc'; cases hc') rfl).1
  · exact (h2.2 [] c3BothClass [] (.num 42) rfl (by intro c' hc'; cases hc') rfl).2

/-- C7: reading a static function property twice returns the identical
callable.  Over a chain whose descriptors up to the carrying one are silent
for the name, with an entry defining a callback for its declared generation
and an instance with no own property for the name: the first read
materializes a fresh callable, installs it as a direct own property with the
entry attributes, and returns it; the second read returns exactly the same
callable and leaves the instance unchanged, so the materializing chain walk
happens at most once per instance. -/
theorem staticFunction_read_idempotent (pre : Chain) (c : JSClass) (post : Chain)
    (inst : Inst) (name : String) (entry : StaticFunctionEntry)
    (hskip : ∀ c' ∈ pre ++ [c], classHasAnswer c' name = none ∧
      classGetAnswer c' name = none ∧ staticValueLookup c' name = none)
    (hpre : ∀ c' ∈ pre, staticFunctionsLookup c' name = none)
    (hsf : staticFunctionsLookup c name = some entry)
    (hcb : (entry.version = 0 ∧ entry.v0.callAsFunction.isSome = true)
      ∨ (entry.version = 1000 ∧ entry.v1000.callAsFunctionEx.isSome = true))
    (hown : genericGetOwnSlot inst name = none) :
    readOwn (pre ++ c :: post) inst name =
      { found := true, value := some (.callable inst.nextId), thrown := none,
        inst := putDirect { inst with nextId := inst.nextId + 1 } name (.callable inst.nextId)
          entry.attributes } ∧
    ownLookup (readOwn (pre ++ c :: post) inst name).inst.own name
      = some (.callable inst.nextId, entry.attributes) ∧
    readOwn (pre ++ c :: post) (readOwn (pre ++ c :: post) inst name).inst name =
      { found := true, value := some (.callable inst.nextId), thrown := none,
        inst := (readOwn (pre ++ c :: post) inst name).inst } := by
  have hc := hskip c (by simp)
  have hslot : ∀ inst2, getOwnPropertySlotR (pre ++ c :: post) inst2 name =
      { slot := some .customStaticFunction, thrown := none } := by
    intro inst2
    unfold getOwnPropertySlotR
    rw [slotAux_append_of_skip _ pre (c :: post) inst2 name (fun c' hm =>
      slotStep_none_of_skip _ c' name (hskip c' (by simp [hm])).1
        (hskip c' (by simp [hm])).2.1 (hskip c' (by simp [hm])).2.2 (hpre c' hm))]
    have hstepc := slotStep_staticFn (pre ++ c :: post) c name entry hc.1 hc.2.1 hc.2.2 hsf
    simp [getOwnPropertySlotAux, hstepc]
  have hsfg1 : staticFunctionGetter (pre ++ c :: post) inst name =
      ({ value := .callable inst.nextId, thrown := none },
        putDirect { inst with nextId := inst.nextId + 1 } name (.callable inst.nextId)
          entry.attributes) := by
    unfold staticFunctionGetter
    rw [hown, sfgAux_append_of_absent pre (c :: post) inst name hpre,
      sfgAux_cons_of_entry c post inst name entry hsf hcb]
  have hfirst : readOwn (pre ++ c :: post) inst name =
      { found := true, value := some (.callable inst.nextId), thrown := none,
        inst := putDirect { inst with nextId := inst.nextId + 1 } name (.callable inst.nextId)
          entry.attributes } := by
    unfold readOwn
    simp only [hslot inst, hsfg1]
  have howncached : genericGetOwnSlot
      (putDirect { inst with nextId := inst.nextId + 1 } name (.callable inst.nextId)
        entry.attributes) name = some (.callable inst.nextId) :=
    genericGetOwnSlot_putDirect_self _ name _ _
  refine ⟨hfirst, ?_, ?_⟩
  · rw [hfirst]
    exact ownLookup_ownInsert_self _ name _ _
  · rw [hfirst]
    unfold readOwn
    simp only [hslot]
    rw [staticFunctionGetter_of_own (pre ++ c :: post) _ name (.callable inst.nextId) howncached]

/-- C7 witness: two reads of the static function m on a fresh instance
return the same callable object identity, and the second read leaves the
instance unchanged. -/
theorem staticFunction_read_idempotent_witness :
    (readOwn [c6Class] {} "m").value = some (.callable 0) ∧
    (readOwn [c6Class] (readOwn [c6Class] {} "m").inst "m").value = some (.callable 0) ∧
    (readOwn [c6Class] (readOwn [c6Class] {} "m").inst "m").inst
      = (readOwn [c6Class] {} "m").inst := by
  have h := staticFunction_read_idempotent [] c6Class [] {} "m" c6Entry
    (by
      intro c' hc'
      rw [List.nil_append, List.mem_singleton] at hc'
      subst hc'
      exact ⟨rfl, rfl, rfl⟩)
    (by intro c' hc'; cases hc') rfl (Or.inl ⟨rfl, rfl⟩) rfl
  simp only [List.nil_append] at h
  refine ⟨?_, ?_, ?_⟩
  · rw [h.1]
  · rw [h.2.2]
  · rw [h.2.2]

end JSCWC
